import Mathlib

/-!
Verification development for the `more-compute` notebook control plane.

The definitions below are a shallow embedding of the Python sources:
- `morecompute/execution/worker.py`   (worker process, event emission)
- `morecompute/next_zmq_executor.py`  (kernel client / event forwarding)
- `morecompute/server.py`             (websocket handlers)
- `morecompute/executor.py`           (AsyncCellExecutor)
- `morecompute/notebook.py`           (Cell / NotebookHandler persistence)
- `morecompute/utils/config_util.py`  (configuration writes)

Strings are modelled through their character lists so that every operation
is structural and computable.  Machine-level concerns (sockets, subprocesses,
real time) are abstracted as parameters of the corresponding functions.
-/

namespace MoreCompute

/-! ## String helpers (Python `str` operations used by the sources) -/

/-- Python-style whitespace test used by `str.strip` / `str.split`. -/
def isPySpace (c : Char) : Bool :=
  c = ' ' || c = '\t' || c = '\n' || c = '\r'

/-- Python `str.strip()`: drop leading and trailing whitespace. -/
def pyStrip (s : String) : String :=
  String.mk (((s.data.dropWhile isPySpace).reverse.dropWhile isPySpace).reverse)

/-- Python `sub in s` for strings: `sub` occurs as a contiguous substring. -/
def hasSubstrAux (sub : List Char) : List Char → Bool
  | [] => sub.isEmpty
  | c :: rest => sub.isPrefixOf (c :: rest) || hasSubstrAux sub rest

/-- Python `sub in s` on `String`. -/
def hasSubstr (s sub : String) : Bool :=
  hasSubstrAux sub.data s.data

/-- Python `c in s` for a single character. -/
def hasChar (s : String) (c : Char) : Bool :=
  s.data.contains c

/-- Python `s.startswith(pre)`. -/
def pyStartsWith (s pre : String) : Bool :=
  pre.data.isPrefixOf s.data

/-- Splitting on a newline character, Python `s.split('\n')`:
`""` yields `[""]`, and separators are not collapsed. -/
def splitNlAux (acc : List Char) : List Char → List (List Char)
  | [] => [acc.reverse]
  | c :: rest =>
      if c = '\n' then acc.reverse :: splitNlAux [] rest
      else splitNlAux (c :: acc) rest

/-- Python `s.split('\n')` on `String`. -/
def pySplitNl (s : String) : List String :=
  (splitNlAux [] s.data).map String.mk

/-- A word character for the regex `\w` (ASCII reading). -/
def isWordChar (c : Char) : Bool :=
  c.isAlphanum || c = '_'

/-- The group captured by `re.match(r'^(\w+)', s)`, or `""` when there is
no match (worker.py line 350-351). -/
def firstWord (s : String) : String :=
  String.mk (s.data.takeWhile isWordChar)

/-- Python `s.split()[0]` on a stripped non-empty string: the first
whitespace-delimited token (executor.py line 209). -/
def firstToken (s : String) : String :=
  String.mk (s.data.takeWhile (fun c => !isPySpace c))

/-! ## Last-line expression-vs-statement classifiers -/

/-- The reserved keywords listed identically in `worker.py` (lines 344-347)
and `executor.py` (lines 193-198). -/
def statementKeywords : List String :=
  ["import", "from", "def", "class", "if", "elif", "else",
   "for", "while", "try", "except", "finally", "with",
   "assert", "del", "global", "nonlocal", "pass", "break",
   "continue", "return", "raise", "yield"]

/-- The worker's classifier for the (stripped, non-empty, non-comment) last
source line, from `worker.py` lines 337-359: assignment check with the
operator list `['==', '!=', '<=', '>=', '=<', '=>']`, then keyword check via
`re.match(r'^(\w+)', last)`, then the balanced-parentheses call check. -/
def workerIsStatement (last : String) : Bool :=
  let assign := hasChar last '=' &&
    !(hasSubstr last "==" || hasSubstr last "!=" || hasSubstr last "<=" ||
      hasSubstr last ">=" || hasSubstr last "=<" || hasSubstr last "=>")
  let kw := statementKeywords.contains (firstWord last)
  let call := hasChar last '(' && hasChar last ')'
  assign || kw || call

/-- `AsyncCellExecutor._is_statement` from `executor.py` lines 191-210:
strip, empty lines are statements, assignment check with operator list
`['==', '!=', '<=', '>=']`, keyword check via `line.split()[0]`.
There is no function-call (parentheses) condition in this classifier. -/
def executorIsStatement (line : String) : Bool :=
  let l := pyStrip line
  if l = "" then true
  else
    (hasChar l '=' &&
      !(hasSubstr l "==" || hasSubstr l "!=" || hasSubstr l "<=" ||
        hasSubstr l ">=")) ||
    statementKeywords.contains (firstToken l)

/-- The spec's reference definition (spec §4.1): a line is a statement when
it begins with a reserved keyword, or contains `=` not paired with one of
`==|!=|<=|>=`, or contains a function-call form (balanced parentheses). -/
def specIsStatement (last : String) : Bool :=
  let kw := statementKeywords.contains (firstWord last)
  let assign := hasChar last '=' &&
    !(hasSubstr last "==" || hasSubstr last "!=" || hasSubstr last "<=" ||
      hasSubstr last ">=")
  let call := hasChar last '(' && hasChar last ')'
  kw || assign || call

/-- The worker's gate for re-evaluating the last source line
(`worker.py` lines 331-361): take `code.strip().split('\n')`, look at the
stripped last line, skip it when empty or a `#` comment, and skip it when
`workerIsStatement` holds; otherwise it is the eval candidate. -/
def lastLineCandidate (code : String) : Option String :=
  match (pySplitNl (pyStrip code)).getLast? with
  | none => none
  | some l =>
      if pyStrip l = "" then none
      else if pyStartsWith (pyStrip l) "#" then none
      else if workerIsStatement (pyStrip l) then none
      else some (pyStrip l)

/-! ## Protocol data: errors, results, events -/

/-- An error payload `{ename, evalue, traceback}` as published by the worker. -/
structure ErrInfo where
  ename : String
  evalue : String
  traceback : List String
deriving DecidableEq, Repr

/-- The `result` record of an `execution_complete` event
(`worker.py` lines 300 and 382): the worker always sends `outputs = []`. -/
structure ExecResult where
  status : String
  execution_count : Int
  execution_time : String
  outputsEmpty : Bool
  error : Option ErrInfo
deriving DecidableEq, Repr

/-- Stream events produced through `_StreamForwarder` while user code runs:
`stream` for completed lines, `stream_update` for carriage-return progress
segments (`worker.py` lines 126-149). -/
inductive StreamEvt where
  | line (name text : String)
  | update (name text : String)
deriving DecidableEq, Repr

/-- Events published by the worker on its event channel
(`worker.py`: every `pub.send_json` call in `worker_main`). -/
inductive WEvent where
  | execution_start (cell : Int) (count : Int)
  | stream (name text : String) (cell : Int)
  | stream_update (name text : String) (cell : Int)
  | execute_result (cell : Int) (count : Int) (textPlain : String)
  | display_data (cell : Int) (imagePng : String)
  | execution_error (cell : Int) (error : ErrInfo)
  | execution_complete (cell : Int) (result : ExecResult)
  | heartbeat
deriving DecidableEq, Repr

/-- Messages the server sends to a websocket client during an execution
(`server.py` `_handle_execute_cell` and the forwarding in
`next_zmq_executor.py` `execute_cell`). -/
inductive CEvent where
  | execution_start (cell : Int) (count : Int)
  | stream_output (cell : Int) (name text : String)
  | execute_result (cell : Int) (count : Option Int) (payload : String)
  | execution_error (cell : Int) (error : ErrInfo)
  | execution_complete (cell : Int) (result : ExecResult)
deriving DecidableEq, Repr

/-- Recognizers used when counting events of a worker trace. -/
def WEvent.isStart : WEvent → Bool
  | .execution_start _ _ => true
  | _ => false

/-- Recognizer for worker `execution_complete` events. -/
def WEvent.isComplete : WEvent → Bool
  | .execution_complete _ _ => true
  | _ => false

/-- Recognizer for worker `execute_result` events. -/
def WEvent.isExecResult : WEvent → Bool
  | .execute_result _ _ _ => true
  | _ => false

/-- Recognizer for client `execution_start` messages. -/
def CEvent.isStart : CEvent → Bool
  | .execution_start _ _ => true
  | _ => false

/-- Recognizer for client `execution_complete` messages. -/
def CEvent.isComplete : CEvent → Bool
  | .execution_complete _ _ => true
  | _ => false

/-! ## Worker execution model (`worker.py` `worker_main`) -/

/-- What the attempted re-evaluation of the last source line did
(`worker.py` lines 362-367).  `value r` means `eval` returned a non-`None`
value whose `repr` is `r`; `noneValue` means it returned `None`; `failed m`
means `eval` raised, and the handler printed the message `m` to stderr
(which flows through the stream forwarder). -/
inductive EvalRes where
  | value (r : String)
  | noneValue
  | failed (msg : String)
deriving DecidableEq, Repr

/-- Outcome of `exec` on the cell body (`worker.py` lines 319-375):
normal return, `KeyboardInterrupt`, or another uncaught exception. -/
inductive POutcome where
  | ok
  | interrupted
  | exc (ename evalue : String) (tb : List String)
deriving DecidableEq, Repr

/-- The fixed payload for an interrupted execution (`worker.py` line 372). -/
def kbInterruptError : ErrInfo :=
  { ename := "KeyboardInterrupt",
    evalue := "Execution interrupted by user",
    traceback := [] }

/-- Worker events that can occur strictly between `execution_start` and
`execution_complete` on the Python path: these are the only `pub.send_json`
calls reachable inside the `try` block of `worker.py` lines 319-375. -/
inductive MidEvt where
  | stream (name text : String) (cell : Int)
  | stream_update (name text : String) (cell : Int)
  | execute_result (cell : Int) (count : Int) (textPlain : String)
  | display_data (cell : Int) (imagePng : String)
  | execution_error (cell : Int) (error : ErrInfo)
deriving DecidableEq, Repr

/-- View a mid-execution event as a published worker event. -/
def MidEvt.toWEvent : MidEvt → WEvent
  | .stream n t c => .stream n t c
  | .stream_update n t c => .stream_update n t c
  | .execute_result c k r => .execute_result c k r
  | .display_data c d => .display_data c d
  | .execution_error c e => .execution_error c e

/-- Embed a forwarded stream event with the running cell index. -/
def StreamEvt.toMid (cell : Int) : StreamEvt → MidEvt
  | .line n t => .stream n t cell
  | .update n t => .stream_update n t cell

/-- The worker counter used for an execution (`worker.py` lines 234-235):
the payload's `execution_count - 1` when it carries an integer, otherwise
the worker's own counter. -/
def effectiveCount (execCount : Int) (reqCount : Option Int) : Int :=
  match reqCount with
  | some n => n - 1
  | none => execCount

/-- The exception payload of the Python path (`worker.py` lines 370-375). -/
def pythonErrPayload : POutcome → Option ErrInfo
  | .ok => none
  | .interrupted => some kbInterruptError
  | .exc en ev tb => some ⟨en, ev, tb⟩

/-- The `result` record of the Python path (`worker.py` line 382):
status `ok`/`error`, the incremented count, the duration, empty `outputs`,
and the error payload if any. -/
def workerResultOf (ecN : Int) (outcome : POutcome) (dur : String) :
    ExecResult :=
  { status := match outcome with
      | .ok => "ok"
      | _ => "error",
    execution_count := ecN,
    execution_time := dur,
    outputsEmpty := true,
    error := pythonErrPayload outcome }

/-- The events of the Python path between `execution_start` and
`execution_complete` (`worker.py` lines 305-381): the forwarded stream
events, then — on success — the optional `execute_result` of the last-line
re-evaluation and the `display_data` events of `_capture_matplotlib`, or —
on failure — the single `execution_error`. -/
def workerMidEvents (cell : Int) (ecN : Int) (code : String)
    (streams : List StreamEvt) (outcome : POutcome) (evalRes : EvalRes)
    (figs : List String) : List MidEvt :=
  let mids := streams.map (StreamEvt.toMid cell)
  match outcome with
  | .ok =>
      let exprEvts : List MidEvt :=
        match lastLineCandidate code with
        | some _ =>
            match evalRes with
            | .value r => [.execute_result cell ecN r]
            | .noneValue => []
            | .failed m => [.stream "stderr" m cell]
        | none => []
      mids ++ exprEvts ++ figs.map (MidEvt.display_data cell)
  | .interrupted => mids ++ [.execution_error cell kbInterruptError]
  | .exc en ev tb => mids ++ [.execution_error cell ⟨en, ev, tb⟩]

/-- One `execute_cell` command on the regular Python path
(`worker.py` lines 229-237 and 305-384).  `execCount` is the worker's
counter before the command; `reqCount` is the payload's `execution_count`;
`streams` are the stream events the user code produced; `outcome`,
`evalRes` and `figs` (base64 payloads of open figures, emitted by
`_capture_matplotlib`) parameterize what the user code did; `dur` is the
measured duration string.  Returns the new counter, the published events,
and the `result` record. -/
def workerExecutePython (execCount : Int) (cell : Int) (reqCount : Option Int)
    (code : String) (streams : List StreamEvt) (outcome : POutcome)
    (evalRes : EvalRes) (figs : List String) (dur : String) :
    Int × List WEvent × ExecResult :=
  let ecN := effectiveCount execCount reqCount + 1
  let result := workerResultOf ecN outcome dur
  (ecN,
   WEvent.execution_start cell ecN ::
     (workerMidEvents cell ecN code streams outcome evalRes figs).map
       MidEvt.toWEvent ++
     [.execution_complete cell result],
   result)

/-- What a special-command cell did (`worker.py` lines 242-296): a shell
cell with its command text, captured stdout/stderr and return code, or a
magic (`%`) cell, which is rejected as unimplemented. -/
inductive SpecialKind where
  | shell (cmd stdout stderr : String) (returncode : Int)
  | magic
deriving DecidableEq, Repr

/-- One `execute_cell` command on the special-command path
(`worker.py` lines 239-303), parameterized like `workerExecutePython`. -/
def workerExecuteSpecial (execCount : Int) (cell : Int) (reqCount : Option Int)
    (kind : SpecialKind) (dur : String) : Int × List WEvent × ExecResult :=
  let ec0 := match reqCount with
    | some n => n - 1
    | none => execCount
  let startEvt := WEvent.execution_start cell (ec0 + 1)
  let ecN := ec0 + 1
  match kind with
  | .shell cmd out err rc =>
      let streamEvts : List WEvent :=
        (if out = "" then [] else [.stream "stdout" out cell]) ++
        (if err = "" then [] else [.stream "stderr" err cell])
      let status := if rc ≠ 0 then "error" else "ok"
      let errPayload : Option ErrInfo :=
        if rc ≠ 0 && pyStrip err = "" then
          some { ename := "ShellCommandError",
                 evalue := "Command failed with return code " ++ toString rc,
                 traceback := ["Shell command failed: " ++ cmd] }
        else none
      let result : ExecResult :=
        { status := status, execution_count := ecN,
          execution_time := dur, outputsEmpty := true, error := errPayload }
      (ecN,
       startEvt :: streamEvts ++
         (match errPayload with
          | some e => [.execution_error cell e]
          | none => []) ++
         [.execution_complete cell result],
       result)
  | .magic =>
      let err : ErrInfo :=
        { ename := "NotImplementedError",
          evalue := "Magic commands (%) not yet supported on remote GPU pods",
          traceback := ["Use ! for shell commands instead"] }
      let result : ExecResult :=
        { status := "error", execution_count := ecN,
          execution_time := dur, outputsEmpty := true, error := some err }
      (ecN,
       startEvt :: [.execution_error cell err,
                    .execution_complete cell result],
       result)

/-- Worker loop state around command handling (`worker.py` lines 188-194). -/
structure WorkerState where
  execCount : Int
  currentCell : Option Int
  shutdownRequested : Bool
deriving DecidableEq, Repr

/-- The `interrupt` command handler (`worker.py` lines 220-227): SIGINT is
sent to the worker's own process when `cell_index` is omitted or equals the
currently running cell; the reply is always `{ok: true}` and no worker state
is written.  Returns (unchanged state, whether SIGINT was raised, reply ok). -/
def workerHandleInterrupt (st : WorkerState) (requested : Option Int) :
    WorkerState × Bool × Bool :=
  (st, requested.isNone || requested == st.currentCell, true)

/-- Dispatch of an `execute_cell` command on the Python path as one worker
step (`worker.py` lines 229-384): run the cell, reply `{ok: true}`, clear
`current_cell`, keep the loop alive. -/
def workerStepExecutePython (st : WorkerState) (cell : Int)
    (reqCount : Option Int) (code : String) (streams : List StreamEvt)
    (outcome : POutcome) (evalRes : EvalRes) (figs : List String)
    (dur : String) : WorkerState × List WEvent × ExecResult × Bool :=
  let r := workerExecutePython st.execCount cell reqCount code streams
    outcome evalRes figs dur
  ({ execCount := r.1, currentCell := none,
     shutdownRequested := st.shutdownRequested },
   r.2.1, r.2.2, true)

/-! ## Kernel client forwarding (`next_zmq_executor.py` `execute_cell`) -/

/-- How one worker event is forwarded to the websocket inside the consume
loop of `NextZmqExecutor.execute_cell` (lines 117-140), with a websocket
present: `stream`/`stream_update` become `stream_output`; `execute_result`
is passed through; `display_data` becomes an `execute_result` with
`execution_count = None`; `execution_error` is passed through;
`execution_start` and `heartbeat` match no branch and are dropped.
`execution_complete` is handled by the loop itself, not here. -/
def forwardStep : WEvent → Option CEvent
  | .stream n t c => some (.stream_output c n t)
  | .stream_update n t c => some (.stream_output c n t)
  | .execute_result c k r => some (.execute_result c (some k) r)
  | .display_data c d => some (.execute_result c none d)
  | .execution_error c err => some (.execution_error c err)
  | .execution_start _ _ => none
  | .heartbeat => none
  | .execution_complete _ _ => none

/-- The consume loop of `NextZmqExecutor.execute_cell`: forward worker
events until an `execution_complete` whose `cell_index` matches, which is
absorbed (its `result` is kept, not forwarded).  Returns the forwarded
client events and the absorbed result, `none` when the trace ends without
a matching completion (in the source the loop would block). -/
def forwardLoop (cell : Int) : List WEvent → List CEvent × Option ExecResult
  | [] => ([], none)
  | .execution_complete c r :: rest =>
      if c = cell then ([], some r) else forwardLoop cell rest
  | e :: rest =>
      let p := forwardLoop cell rest
      ((forwardStep e).toList ++ p.1, p.2)

/-- The websocket messages `NextZmqExecutor.execute_cell` sends for one
non-special cell (lines 110-148), and the result it returns: its own
`execution_start` with `self.execution_count + 1`, the forwarded worker
events, then its own `execution_complete` carrying the worker's result with
`execution_time` overwritten by its own measurement `dur`. -/
def zmqExecuteCellModel (prevCount : Int) (cell : Int)
    (wEvents : List WEvent) (dur : String) :
    List CEvent × Option ExecResult :=
  let fwd := forwardLoop cell wEvents
  match fwd.2 with
  | some r =>
      let res := { r with execution_time := dur }
      (.execution_start cell (prevCount + 1) ::
         fwd.1 ++ [.execution_complete cell res],
       some res)
  | none =>
      (.execution_start cell (prevCount + 1) :: fwd.1, none)

/-- The full message sequence a client receives for one `execute_cell`
request (`server.py` `_handle_execute_cell`, lines 519-564): the handler
sends its own `execution_start` with `executor.execution_count + 1`, then
the executor's messages, then its own `execution_complete` with the result
the executor returned. -/
def serverHandleExecuteCell (prevCount : Int) (cell : Int)
    (wEvents : List WEvent) (dur : String) : List CEvent :=
  let ex := zmqExecuteCellModel prevCount cell wEvents dur
  .execution_start cell (prevCount + 1) ::
    ex.1 ++
    (match ex.2 with
     | some r => [.execution_complete cell r]
     | none => [])

/-! ## `AsyncCellExecutor.execute_cell` (`executor.py` lines 25-61) -/

/-- Result record built by `AsyncCellExecutor.execute_cell`; outputs are
kept abstract since the empty-source branch never fills them. -/
structure AsyncResult where
  execution_count : Int
  outputs : List String
  error : Option ErrInfo
  status : String
deriving DecidableEq, Repr

/-- `AsyncCellExecutor.execute_cell` down to its three-way branch
(lines 36-61): increment the count, build the base result, return it
immediately when the stripped source is empty, otherwise delegate to the
special-command handler or the Python path (both kept as parameters). -/
def asyncExecuteCell (count : Int) (source : String)
    (isSpecial : String → Bool)
    (special : Int → AsyncResult → AsyncResult)
    (python : Int → AsyncResult → AsyncResult) : Int × AsyncResult :=
  let c := count + 1
  let result : AsyncResult :=
    { execution_count := c, outputs := [], error := none, status := "ok" }
  if pyStrip source = "" then (c, result)
  else if isSpecial source then (c, special c result)
  else (c, python c result)

/-! ## Notebook persistence (`notebook.py`) -/

/-- A notebook output record; the persistence code treats outputs as opaque
JSON, so only a tag and flat fields are modelled. -/
structure NbOutput where
  output_type : String
  fields : List (String × String)
deriving DecidableEq, Repr

/-- The `source` value of a serialized cell record: a string or a list of
strings (spec §6; `_load_ipynb` accepts both). -/
inductive SourceField where
  | str (s : String)
  | list (parts : List String)
deriving DecidableEq, Repr

/-- Whether a source field is already a plain string. -/
def SourceField.isStr : SourceField → Bool
  | .str _ => true
  | .list _ => false

/-- The in-memory `Cell` of `notebook.py` (lines 8-14): cell type, source,
metadata, outputs, execution count.  There is no identifier field. -/
structure Cell where
  cell_type : String
  source : SourceField
  metadata : List (String × String)
  outputs : List NbOutput
  execution_count : Option Int
deriving DecidableEq, Repr

instance : Inhabited Cell :=
  ⟨{ cell_type := "code", source := .str "", metadata := [],
     outputs := [], execution_count := none }⟩

/-- A serialized cell record as stored in an `.ipynb` file.  `id` models
the presence of an `"id"` key in the JSON record; the other keys mirror
`Cell.to_dict`. -/
structure CellDict where
  id : Option String
  cell_type : String
  source : SourceField
  metadata : List (String × String)
  outputs : List NbOutput
  execution_count : Option Int
deriving DecidableEq, Repr

/-- `Cell.to_dict` (`notebook.py` lines 16-23): emits exactly the five keys
`cell_type`, `source`, `metadata`, `outputs`, `execution_count` — no `id`. -/
def Cell.to_dict (c : Cell) : CellDict :=
  { id := none, cell_type := c.cell_type, source := c.source,
    metadata := c.metadata, outputs := c.outputs,
    execution_count := c.execution_count }

/-- `Cell.from_dict` (`notebook.py` lines 25-34): reads the five known keys
and ignores everything else, in particular any `id`. -/
def Cell.from_dict (d : CellDict) : Cell :=
  { cell_type := d.cell_type, source := d.source, metadata := d.metadata,
    outputs := d.outputs, execution_count := d.execution_count }

/-- The loader step of `_load_ipynb` for one cell (lines 79-84):
`Cell.from_dict` followed by joining a list-valued source into a string. -/
def loadCell (d : CellDict) : Cell :=
  let c := Cell.from_dict d
  match c.source with
  | .list parts => { c with source := .str (String.join parts) }
  | .str _ => c

/-- The in-memory state of `NotebookHandler` relevant to persistence. -/
structure NotebookHandlerState where
  cells : List Cell
  metadata : List (String × String)
deriving DecidableEq, Repr

/-- The document written by `_save_ipynb` (`notebook.py` lines 130-140). -/
structure NbFile where
  cells : List CellDict
  metadata : List (String × String)
  nbformat : Int
  nbformat_minor : Int
deriving DecidableEq, Repr

/-- `NotebookHandler._save_ipynb` (lines 130-140). -/
def saveIpynb (st : NotebookHandlerState) : NbFile :=
  { cells := st.cells.map Cell.to_dict, metadata := st.metadata,
    nbformat := 4, nbformat_minor := 4 }

/-- `NotebookHandler._load_ipynb` (lines 71-84). -/
def loadIpynb (f : NbFile) : NotebookHandlerState :=
  { cells := f.cells.map loadCell, metadata := f.metadata }

/-- A one-cell notebook file whose cell record carries an `"id"` key, as
every nbformat-4.5 file written by Jupyter does. -/
def fileWithCellId : NbFile :=
  { cells := [{ id := some "abc123", cell_type := "markdown",
                source := .str "hello", metadata := [], outputs := [],
                execution_count := none }],
    metadata := [], nbformat := 4, nbformat_minor := 4 }

/-- `NotebookHandler.delete_cell` (`notebook.py` lines 169-174): delete the
cell and return `True` when `0 <= index < len(self.cells)`, otherwise
return `False` and leave the list alone. -/
def deleteCell (cells : List Cell) (index : Int) : Bool × List Cell :=
  if 0 ≤ index ∧ index < (cells.length : Int) then
    (true, cells.eraseIdx index.toNat)
  else (false, cells)

/-- `NotebookHandler.update_cell` (`notebook.py` lines 176-181): overwrite
the cell's source and return `True` when in range, otherwise return `False`
and leave the list alone. -/
def updateCell (cells : List Cell) (index : Int) (source : String) :
    Bool × List Cell :=
  if 0 ≤ index ∧ index < (cells.length : Int) then
    (true,
     cells.set index.toNat
       { cells.getD index.toNat default with source := .str source })
  else (false, cells)

/-! ## Kernel reset (`next_zmq_executor.py`, `server.py`) -/

/-- The `NextZmqExecutor` state relevant to the reset claim. -/
structure ZmqExecutorState where
  execution_count : Int
deriving DecidableEq, Repr

/-- `NextZmqExecutor.reset_kernel` (lines 165-173): send `shutdown` to the
worker (an external effect), then set `self.execution_count = 0` and build
a fresh special handler.  Only the count is state here. -/
def resetKernel (st : ZmqExecutorState) : ZmqExecutorState :=
  { st with execution_count := 0 }

/-- A cell of the server's notebook (the dict records the server mutates in
`_handle_execute_cell`): cell type, source, outputs, execution count. -/
structure SCell where
  cell_type : String
  source : String
  outputs : List NbOutput
  execution_count : Option Int
deriving DecidableEq, Repr

/-- Modelled from the spec: `Notebook.clear_all_outputs` — the `Notebook`
class the server imports from `morecompute/notebook.py` is not present
under `src/` (the file there defines `NotebookHandler` without this
method).  Spec §4.4: "`clear_all_outputs()`: wipe outputs and execution
counts for code cells only." -/
def clearAllOutputs (cells : List SCell) : List SCell :=
  cells.map fun c =>
    if c.cell_type = "code" then
      { c with outputs := [], execution_count := none }
    else c

/-- `WebSocketManager._handle_reset_kernel` (`server.py` lines 649-661):
reset the executor, clear all outputs in the notebook (broadcasts are
external effects). -/
def handleResetKernel (ex : ZmqExecutorState) (cells : List SCell) :
    ZmqExecutorState × List SCell :=
  (resetKernel ex, clearAllOutputs cells)

/-! ## Configuration writes (`utils/config_util.py`) -/

/-- File-system operations performed by `_save_config` and by the
hypothetical temp-then-rename scheme of the spec. -/
inductive FsOp where
  | mkdirs (path : String) (mode : Nat)
  | openTrunc (path : String)
  | writeAll (path : String) (data : String)
  | chmod (path : String) (mode : Nat)
  | rename (src dst : String)
deriving DecidableEq, Repr

/-- Whether an operation is a rename. -/
def FsOp.isRename : FsOp → Bool
  | .rename _ _ => true
  | _ => false

/-- The user config path `~/.morecompute/config.json`. -/
def configPath : String := "~/.morecompute/config.json"

/-- The config directory `~/.morecompute`. -/
def configDir : String := "~/.morecompute"

/-- The operation sequence of `_save_config` (`config_util.py` lines
30-36): ensure the directory, open `CONFIG_FILE` with mode `"w"` (which
truncates it in place), write the serialized config, then chmod to 0600.
There is no temporary file and no rename. -/
def saveConfigOps (data : String) : List FsOp :=
  [.mkdirs configDir 448,
   .openTrunc configPath,
   .writeAll configPath data,
   .chmod configPath 384]

/-- A file system mapping paths to contents and permission modes. -/
structure Fs where
  contents : String → Option String
  modes : String → Option Nat

/-- Effect of one operation: `openTrunc` truncates the file in place,
`writeAll` appends the payload to the (just truncated) file, `chmod` sets
the mode, and `rename` moves a file atomically onto its destination. -/
def applyOp (fs : Fs) : FsOp → Fs
  | .mkdirs _ _ => fs
  | .openTrunc p =>
      { fs with contents := fun q => if q = p then some "" else fs.contents q }
  | .writeAll p d =>
      { fs with contents := fun q =>
          if q = p then some ((fs.contents p).getD "" ++ d) else fs.contents q }
  | .chmod p m =>
      { fs with modes := fun q => if q = p then some m else fs.modes q }
  | .rename src dst =>
      { fs with contents := fun q =>
          if q = dst then fs.contents src
          else if q = src then none
          else fs.contents q }

/-- Run a list of operations left to right. -/
def applyOps (fs : Fs) (ops : List FsOp) : Fs :=
  ops.foldl applyOp fs

/-! ## General lemmas -/

theorem bool_or_left_swap (a b c : Bool) : ((a || b) || c) = ((b || a) || c) := by
  cases a <;> cases b <;> cases c <;> rfl

theorem str_empty_append (s : String) : "" ++ s = s := by
  cases s
  rfl

theorem midEvt_not_boundary (m : MidEvt) :
    m.toWEvent.isStart = false ∧ m.toWEvent.isComplete = false := by
  cases m <;> exact ⟨rfl, rfl⟩

theorem countP_map_toWEvent_zero (p : WEvent → Bool) (l : List MidEvt)
    (h : ∀ m ∈ l, p (MidEvt.toWEvent m) = false) :
    (l.map MidEvt.toWEvent).countP p = 0 := by
  rw [List.countP_map]
  apply List.countP_eq_zero.mpr
  intro m hm
  simp [Function.comp, h m hm]

/-! ## Claim theorems -/

/-- C10: for every index outside `[0, number of cells)`,
`NotebookHandler.delete_cell(index)` and `NotebookHandler.update_cell(index,
source)` return `False` and leave the cell list completely unchanged; for
in-range indices they return `True`. -/
theorem claimC10_delete_update_bounds (cells : List Cell) (index : Int)
    (src : String) :
    ((index < 0 ∨ (cells.length : Int) ≤ index) →
      deleteCell cells index = (false, cells) ∧
      updateCell cells index src = (false, cells)) ∧
    (0 ≤ index → index < (cells.length : Int) →
      (deleteCell cells index).1 = true ∧
      (updateCell cells index src).1 = true) := by
  constructor
  · intro h
    have hn : ¬ (0 ≤ index ∧ index < (cells.length : Int)) := by omega
    simp [deleteCell, updateCell, hn]
  · intro h1 h2
    have hp : 0 ≤ index ∧ index < (cells.length : Int) := ⟨h1, h2⟩
    simp [deleteCell, updateCell, hp]

/-- Witness for C10 at concrete inputs: index 5 is out of range for a
one-cell list and leaves it unchanged; index 0 is in range. -/
theorem claimC10_witness :
    (deleteCell ([default] : List Cell) 5 = (false, [default]) ∧
      updateCell ([default] : List Cell) 5 "x" = (false, [default])) ∧
    ((deleteCell ([default] : List Cell) 0).1 = true ∧
      (updateCell ([default] : List Cell) 0 "x").1 = true) :=
  ⟨(claimC10_delete_update_bounds [default] 5 "x").1 (by decide),
   (claimC10_delete_update_bounds [default] 0 "x").2 (by decide) (by decide)⟩

/-- C5: a successful execution of a cell whose source is the empty string
returns `outputs = []`, status `ok`, and an execution count strictly
greater than the previous one — in `AsyncCellExecutor.execute_cell` via its
empty-source early return, and in the worker (which also publishes no
`execute_result` event for the empty source). -/
theorem claimC5_empty_cell (n : Int) (isSp : String → Bool)
    (special python : Int → AsyncResult → AsyncResult)
    (m cell : Int) (streams : List StreamEvt) (evalRes : EvalRes)
    (figs : List String) (dur : String) :
    asyncExecuteCell n "" isSp special python =
      (n + 1, ⟨n + 1, [], none, "ok"⟩) ∧
    n < n + 1 ∧
    (workerExecutePython m cell (some (m + 1)) "" streams .ok evalRes figs
        dur).2.2 = ⟨"ok", m + 1, dur, true, none⟩ ∧
    m < m + 1 ∧
    ((workerExecutePython m cell (some (m + 1)) "" streams .ok evalRes figs
        dur).2.1.countP WEvent.isExecResult) = 0 := by
  have hstrip : pyStrip "" = "" := rfl
  have hcand : lastLineCandidate "" = none := rfl
  refine ⟨by simp [asyncExecuteCell, hstrip], by omega, ?_, by omega, ?_⟩
  · simp [workerExecutePython, workerResultOf, effectiveCount,
      pythonErrPayload]
  · simp only [workerExecutePython, List.countP_cons, List.countP_append]
    have hmid : ((workerMidEvents cell (effectiveCount m (some (m + 1)) + 1)
        "" streams .ok evalRes figs).map MidEvt.toWEvent).countP
        WEvent.isExecResult = 0 := by
      apply countP_map_toWEvent_zero
      intro x hx
      simp [workerMidEvents, hcand] at hx
      rcases hx with ⟨s, _, rfl⟩ | ⟨d, _, rfl⟩
      · cases s <;> rfl
      · rfl
    simp [hmid, WEvent.isExecResult]

/-- C9: when the `execute_cell` payload carries an integer
`execution_count` N, the worker's `execution_start` event reports N, the
`execution_complete` result reports N, and the worker counter ends at N —
on both the Python path and the special-command path. -/
theorem claimC9_execution_count_agreement (ec cell N : Int) (code : String)
    (streams : List StreamEvt) (outcome : POutcome) (evalRes : EvalRes)
    (figs : List String) (dur : String) (kind : SpecialKind)
    (dur2 : String) :
    ((workerExecutePython ec cell (some N) code streams outcome evalRes figs
        dur).2.1.head? = some (.execution_start cell N)) ∧
    (workerExecutePython ec cell (some N) code streams outcome evalRes figs
        dur).2.2.execution_count = N ∧
    (workerExecutePython ec cell (some N) code streams outcome evalRes figs
        dur).1 = N ∧
    ((workerExecuteSpecial ec cell (some N) kind dur2).2.1.head? =
      some (.execution_start cell N)) ∧
    (workerExecuteSpecial ec cell (some N) kind dur2).2.2.execution_count =
      N ∧
    (workerExecuteSpecial ec cell (some N) kind dur2).1 = N := by
  cases kind <;>
    simp [workerExecutePython, workerExecuteSpecial, workerResultOf,
      effectiveCount]

/-- C4: an execution interrupted by `KeyboardInterrupt` makes the worker
publish an `execution_error` with ename `KeyboardInterrupt` and evalue
`"Execution interrupted by user"`, directly followed by an
`execution_complete` whose result status is `"error"`; the worker stays in
its command loop afterwards (no shutdown, current cell cleared, reply ok). -/
theorem claimC4_interrupt_error_complete (st : WorkerState) (cell : Int)
    (reqCount : Option Int) (code : String) (streams : List StreamEvt)
    (evalRes : EvalRes) (figs : List String) (dur : String) :
    (workerStepExecutePython st cell reqCount code streams .interrupted
        evalRes figs dur).2.2.1.status = "error" ∧
    (workerStepExecutePython st cell reqCount code streams .interrupted
        evalRes figs dur).2.2.1.error = some kbInterruptError ∧
    kbInterruptError.ename = "KeyboardInterrupt" ∧
    kbInterruptError.evalue = "Execution interrupted by user" ∧
    (∃ pre, (workerStepExecutePython st cell reqCount code streams
        .interrupted evalRes figs dur).2.1 =
      pre ++ [.execution_error cell kbInterruptError,
              .execution_complete cell
                (workerStepExecutePython st cell reqCount code streams
                  .interrupted evalRes figs dur).2.2.1]) ∧
    (workerStepExecutePython st cell reqCount code streams .interrupted
        evalRes figs dur).1.shutdownRequested = st.shutdownRequested ∧
    (workerStepExecutePython st cell reqCount code streams .interrupted
        evalRes figs dur).1.currentCell = none ∧
    (workerStepExecutePython st cell reqCount code streams .interrupted
        evalRes figs dur).2.2.2 = true := by
  refine ⟨rfl, rfl, rfl, rfl, ?_, rfl, rfl, rfl⟩
  refine ⟨WEvent.execution_start cell
    (effectiveCount st.execCount reqCount + 1) ::
    (streams.map (StreamEvt.toMid cell)).map MidEvt.toWEvent, ?_⟩
  simp [workerStepExecutePython, workerExecutePython, workerMidEvents,
    MidEvt.toWEvent, workerResultOf, pythonErrPayload]

/-- C3 counterexample: an `interrupt` with `cell_index` omitted, received
while no cell is executing (`current_cell = None`), is NOT a no-op — the
condition `requested is None or requested == current_cell` holds, so the
worker sends SIGINT to its own process (`worker.py` lines 220-227),
contradicting the claim that every idle-time interrupt leaves the worker
state untouched. -/
theorem claimC3_counterexample :
    (workerHandleInterrupt ⟨0, none, false⟩ none).2.1 = true := rfl

/-- C3 amended: an idle-time `interrupt` is a no-op with an `{ok: true}`
reply only when it carries a `cell_index` (which then differs from the
absent current cell); an interrupt whose `cell_index` differs from the
currently running cell is likewise a no-op beyond the reply; but an
idle-time interrupt with `cell_index` omitted raises SIGINT in the worker. -/
theorem claimC3_amended (st : WorkerState) (i : Int)
    (hne : (some i : Option Int) ≠ st.currentCell) :
    (workerHandleInterrupt st (some i)).1 = st ∧
    (workerHandleInterrupt st (some i)).2.1 = false ∧
    (workerHandleInterrupt st (some i)).2.2 = true ∧
    (workerHandleInterrupt st none).2.1 = true := by
  refine ⟨rfl, ?_, rfl, rfl⟩
  simp [workerHandleInterrupt]
  exact hne

/-- Witness for C3 amended: an interrupt targeting cell 3 while the worker
is idle replies ok, raises no SIGINT, and changes nothing. -/
theorem claimC3_witness :
    (workerHandleInterrupt ⟨0, none, false⟩ (some 3)).1 =
      ⟨0, none, false⟩ ∧
    (workerHandleInterrupt ⟨0, none, false⟩ (some 3)).2.1 = false ∧
    (workerHandleInterrupt ⟨0, none, false⟩ (some 3)).2.2 = true ∧
    (workerHandleInterrupt ⟨0, none, false⟩ none).2.1 = true :=
  claimC3_amended ⟨0, none, false⟩ 3 (by decide)

/-- C6: `reset_kernel` sets the executor's execution count to 0 and clears
outputs and execution counts of code cells, while leaving every cell's
source, cell type, and the cell ordering unchanged. -/
theorem claimC6_reset_kernel (ex : ZmqExecutorState) (cells : List SCell) :
    (handleResetKernel ex cells).1.execution_count = 0 ∧
    (handleResetKernel ex cells).2.map (fun c => c.source) =
      cells.map (fun c => c.source) ∧
    (handleResetKernel ex cells).2.map (fun c => c.cell_type) =
      cells.map (fun c => c.cell_type) ∧
    (handleResetKernel ex cells).2.length = cells.length ∧
    ((handleResetKernel ex cells).2.all fun c =>
      c.cell_type ≠ "code" ||
        (c.outputs.isEmpty && c.execution_count.isNone)) = true := by
  refine ⟨rfl, ?_, ?_, ?_, ?_⟩
  · simp only [handleResetKernel, clearAllOutputs, List.map_map]
    apply List.map_congr_left
    intro c _
    by_cases h : c.cell_type = "code" <;> simp [h]
  · simp only [handleResetKernel, clearAllOutputs, List.map_map]
    apply List.map_congr_left
    intro c _
    by_cases h : c.cell_type = "code" <;> simp [h]
  · simp [handleResetKernel, clearAllOutputs]
  · simp only [handleResetKernel, clearAllOutputs, List.all_map]
    apply List.all_eq_true.mpr
    intro c _
    by_cases h : c.cell_type = "code" <;> simp [h]

/-- C8 counterexample: `_save_config` performs no rename at all, and a
failure right after opening the config file for writing (which truncates
in place) leaves an empty file where the old configuration used to be —
the previously stored configuration is NOT preserved under a failed write,
refuting write-to-temp-then-rename atomicity. -/
theorem claimC8_counterexample :
    ((saveConfigOps "new-config").all fun op => !op.isRename) = true ∧
    (applyOps
        ⟨fun q => if q = configPath then some "old-config" else none,
         fun q => if q = configPath then some 384 else none⟩
        ((saveConfigOps "new-config").take 2)).contents configPath =
      some "" ∧
    (some "" : Option String) ≠ some "old-config" := by
  refine ⟨by decide, ?_, by decide⟩
  simp [saveConfigOps, applyOps, applyOp, List.foldl]

/-- C8 amended: `_save_config` writes `config.json` in place — it ensures
the directory, truncates the file, writes the serialized configuration and
chmods it to 0600, with no temporary file and no rename; a completed write
leaves exactly the new data with mode 0600, but an interruption between
the truncating open and the write leaves an empty config file. -/
theorem claimC8_amended (fs : Fs) (d : String) :
    (applyOps fs (saveConfigOps d)).contents configPath = some d ∧
    (applyOps fs (saveConfigOps d)).modes configPath = some 384 ∧
    (applyOps fs ((saveConfigOps d).take 2)).contents configPath =
      some "" ∧
    ((saveConfigOps d).all fun op => !op.isRename) = true := by
  refine ⟨?_, ?_, ?_, ?_⟩
  · simp [saveConfigOps, applyOps, applyOp, List.foldl, str_empty_append]
  · simp [saveConfigOps, applyOps, applyOp, List.foldl]
  · simp [saveConfigOps, applyOps, applyOp, List.foldl]
  · simp [saveConfigOps, FsOp.isRename]

theorem loadCell_to_dict (c : Cell) (h : c.source.isStr = true) :
    loadCell (Cell.to_dict c) = c := by
  cases c with
  | mk ct src md outs ec =>
    cases src with
    | str s => rfl
    | list parts => simp [SourceField.isStr] at h

/-- C7 counterexample: the `Cell` model of `notebook.py` has no identifier
field, so a cell id present in a notebook file is dropped by
`from_dict` and never written back by `to_dict` — a load/save cycle on a
file whose cell carries an `"id"` does not preserve the identifier,
refuting the claim that cell identifiers are preserved across save/load. -/
theorem claimC7_counterexample :
    saveIpynb (loadIpynb fileWithCellId) ≠ fileWithCellId ∧
    (saveIpynb (loadIpynb fileWithCellId)).cells.map (fun d => d.id) =
      [none] ∧
    fileWithCellId.cells.map (fun d => d.id) = [some "abc123"] := by
  refine ⟨by decide, rfl, rfl⟩

/-- C7 amended: saving a notebook to `.ipynb` and loading it back yields an
equal notebook — cell ordering, cell types, sources (already strings in
memory), metadata, outputs and execution counts all round-trip — but the
cell model carries no identifier field, and every saved cell record has no
`"id"` key. -/
theorem claimC7_amended (st : NotebookHandlerState)
    (h : (st.cells.all fun c => c.source.isStr) = true) :
    loadIpynb (saveIpynb st) = st ∧
    ((saveIpynb st).cells.all fun d => d.id.isNone) = true := by
  constructor
  · cases st with
    | mk cells meta =>
      simp only [saveIpynb, loadIpynb, List.map_map,
        NotebookHandlerState.mk.injEq]
      refine ⟨?_, trivial⟩
      have hall : ∀ c ∈ cells, (loadCell ∘ Cell.to_dict) c = id c := by
        intro c hc
        have hs : c.source.isStr = true := List.all_eq_true.mp h c hc
        simpa using loadCell_to_dict c hs
      rw [List.map_congr_left hall, List.map_id]
  · apply List.all_eq_true.mpr
    intro d hd
    obtain ⟨c, _, rfl⟩ := List.mem_map.mp hd
    rfl

/-- Witness for C7 amended at a concrete two-cell notebook. -/
theorem claimC7_witness :
    loadIpynb (saveIpynb
      ⟨[⟨"code", .str "x = 1", [], [], some 1⟩,
        ⟨"markdown", .str "hi", [], [], none⟩], [("k", "v")]⟩) =
      ⟨[⟨"code", .str "x = 1", [], [], some 1⟩,
        ⟨"markdown", .str "hi", [], [], none⟩], [("k", "v")]⟩ ∧
    ((saveIpynb
      ⟨[⟨"code", .str "x = 1", [], [], some 1⟩,
        ⟨"markdown", .str "hi", [], [], none⟩], [("k", "v")]⟩).cells.all
      fun d => d.id.isNone) = true :=
  claimC7_amended
    ⟨[⟨"code", .str "x = 1", [], [], some 1⟩,
      ⟨"markdown", .str "hi", [], [], none⟩], [("k", "v")]⟩ (by decide)

theorem lastLineCandidate_not_statement {code last : String}
    (h : lastLineCandidate code = some last) :
    workerIsStatement last = false := by
  unfold lastLineCandidate at h
  split at h
  · exact Option.noConfusion h
  · split_ifs at h with h1 h2 h3
    injection h with h4
    subst h4
    simpa using h3

/-- C2 counterexample: the claim's reference classifier (spec §4.1) marks
`what()` a statement by the function-call rule, but
`AsyncCellExecutor._is_statement` has no such rule and classifies it as an
expression (to be re-evaluated); and the worker classifier additionally
treats `=<` / `=>` as pairing `=`, so on `a =< b` it disagrees with the
reference definition. -/
theorem claimC2_counterexample :
    executorIsStatement "what()" = false ∧
    specIsStatement "what()" = true ∧
    workerIsStatement "a =< b" = false ∧
    specIsStatement "a =< b" = true := by decide

/-- C2 amended: the worker's classifier agrees with the spec's reference
definition on every line containing neither `=<` nor `=>`; any line
containing both `(` and `)` is classified a statement by the worker, and a
line so classified is never the worker's last-line eval candidate (no
double execution in the worker).  The executor.py classifier lacks the
function-call rule (see the counterexample). -/
theorem claimC2_amended (l last code : String)
    (h1 : hasSubstr l "=<" = false) (h2 : hasSubstr l "=>" = false)
    (hp : hasChar last '(' = true) (hq : hasChar last ')' = true) :
    workerIsStatement l = specIsStatement l ∧
    workerIsStatement last = true ∧
    lastLineCandidate code ≠ some last := by
  have hcall : workerIsStatement last = true := by
    simp [workerIsStatement, hp, hq]
  refine ⟨?_, hcall, ?_⟩
  · simp only [workerIsStatement, specIsStatement, h1, h2, Bool.or_false]
    exact bool_or_left_swap _ _ _
  · intro hc
    have hfalse := lastLineCandidate_not_statement hc
    rw [hcall] at hfalse
    exact Bool.noConfusion hfalse

/-- Witness for C2 amended: at `l = "x + 1"`, `last = "f(x)"`,
`code = "y"`. -/
theorem claimC2_witness :
    workerIsStatement "x + 1" = specIsStatement "x + 1" ∧
    workerIsStatement "f(x)" = true ∧
    lastLineCandidate "y" ≠ some "f(x)" :=
  claimC2_amended "x + 1" "f(x)" "y" (by decide) (by decide) (by decide)
    (by decide)

theorem countP_start_filterMap (l : List WEvent) :
    (l.filterMap forwardStep).countP CEvent.isStart = 0 := by
  induction l with
  | nil => rfl
  | cons e rest ih =>
      cases e <;>
        simp [List.filterMap_cons, forwardStep, List.countP_cons,
          CEvent.isStart, ih]

theorem countP_complete_filterMap (l : List WEvent) :
    (l.filterMap forwardStep).countP CEvent.isComplete = 0 := by
  induction l with
  | nil => rfl
  | cons e rest ih =>
      cases e <;>
        simp [List.filterMap_cons, forwardStep, List.countP_cons,
          CEvent.isComplete, ih]

theorem forwardLoop_clean_append (cell : Int) (l1 l2 : List WEvent)
    (h : ∀ e ∈ l1, e.isComplete = false) :
    forwardLoop cell (l1 ++ l2) =
      (l1.filterMap forwardStep ++ (forwardLoop cell l2).1,
       (forwardLoop cell l2).2) := by
  induction l1 with
  | nil => simp
  | cons e rest ih =>
      have he : e.isComplete = false := h e (List.mem_cons_self e rest)
      have ih2 := ih (fun x hx => h x (List.mem_cons_of_mem _ hx))
      cases e <;>
        simp_all [forwardLoop, List.filterMap_cons, forwardStep,
          WEvent.isComplete]

theorem serverTrace_shape (prev cell : Int) (body : List WEvent)
    (r : ExecResult) (dur2 : String)
    (hb : ∀ e ∈ body, e.isComplete = false) :
    serverHandleExecuteCell prev cell
        (body ++ [.execution_complete cell r]) dur2 =
      .execution_start cell (prev + 1) ::
        (.execution_start cell (prev + 1) ::
          (body.filterMap forwardStep ++
           [.execution_complete cell { r with execution_time := dur2 }])) ++
        [.execution_complete cell { r with execution_time := dur2 }] := by
  have hloop := forwardLoop_clean_append cell body
    [.execution_complete cell r] hb
  simp [serverHandleExecuteCell, zmqExecuteCellModel, hloop, forwardLoop]

/-- C1 counterexample: for the execution of an empty cell the client
receives TWO `execution_start` messages (one from the server handler, one
from the executor) rather than exactly one, refuting the claim at this
concrete input. -/
theorem claimC1_counterexample :
    ((serverHandleExecuteCell 0 0
        (workerExecutePython 0 0 (some 1) "" [] .ok .noneValue [] "0ms").2.1
        "1ms").countP CEvent.isStart) = 2 ∧ (2 : Nat) ≠ 1 := by
  exact ⟨by decide, by decide⟩

/-- C1 amended: for every cell execution on the Python path, the client's
message stream consists of exactly TWO `execution_start` messages (the
server handler's and the executor's), then the forwarded intermediate
events, then exactly TWO `execution_complete` messages (the executor's and
the server handler's, carrying the same result); no message for the
execution is delivered after the final `execution_complete`, and the worker
itself publishes exactly one `execution_start` and one
`execution_complete`. -/
theorem claimC1_amended (prev ec cell : Int) (reqCount : Option Int)
    (code : String) (streams : List StreamEvt) (outcome : POutcome)
    (evalRes : EvalRes) (figs : List String) (dur dur2 : String) :
    (serverHandleExecuteCell prev cell
        (workerExecutePython ec cell reqCount code streams outcome evalRes
          figs dur).2.1 dur2).countP CEvent.isStart = 2 ∧
    (serverHandleExecuteCell prev cell
        (workerExecutePython ec cell reqCount code streams outcome evalRes
          figs dur).2.1 dur2).countP CEvent.isComplete = 2 ∧
    (serverHandleExecuteCell prev cell
        (workerExecutePython ec cell reqCount code streams outcome evalRes
          figs dur).2.1 dur2).getLast? =
      some (.execution_complete cell
        { (workerExecutePython ec cell reqCount code streams outcome evalRes
            figs dur).2.2 with execution_time := dur2 }) ∧
    (workerExecutePython ec cell reqCount code streams outcome evalRes figs
        dur).2.1.countP WEvent.isStart = 1 ∧
    (workerExecutePython ec cell reqCount code streams outcome evalRes figs
        dur).2.1.countP WEvent.isComplete = 1 := by
  have hb : ∀ e ∈ (WEvent.execution_start cell
      (effectiveCount ec reqCount + 1) ::
      (workerMidEvents cell (effectiveCount ec reqCount + 1) code streams
        outcome evalRes figs).map MidEvt.toWEvent),
      e.isComplete = false := by
    intro e he
    rcases List.mem_cons.mp he with rfl | hm
    · rfl
    · obtain ⟨m, _, rfl⟩ := List.mem_map.mp hm
      exact (midEvt_not_boundary m).2
  have htrace : (workerExecutePython ec cell reqCount code streams outcome
      evalRes figs dur).2.1 =
      (WEvent.execution_start cell (effectiveCount ec reqCount + 1) ::
        (workerMidEvents cell (effectiveCount ec reqCount + 1) code streams
          outcome evalRes figs).map MidEvt.toWEvent) ++
      [.execution_complete cell
        (workerResultOf (effectiveCount ec reqCount + 1) outcome dur)] :=
    rfl
  have hshape := serverTrace_shape prev cell
    (WEvent.execution_start cell (effectiveCount ec reqCount + 1) ::
      (workerMidEvents cell (effectiveCount ec reqCount + 1) code streams
        outcome evalRes figs).map MidEvt.toWEvent)
    (workerResultOf (effectiveCount ec reqCount + 1) outcome dur) dur2 hb
  rw [htrace] at *
  refine ⟨?_, ?_, ?_, ?_, ?_⟩
  · rw [hshape]
    simp [List.countP_cons, List.countP_append, CEvent.isStart,
      countP_start_filterMap]
  · rw [hshape]
    simp [List.countP_cons, List.countP_append, CEvent.isComplete,
      countP_complete_filterMap]
  · rw [hshape]
    rw [show (CEvent.execution_start cell (prev + 1) ::
        (CEvent.execution_start cell (prev + 1) ::
          ((WEvent.execution_start cell (effectiveCount ec reqCount + 1) ::
            (workerMidEvents cell (effectiveCount ec reqCount + 1) code
              streams outcome evalRes figs).map
              MidEvt.toWEvent).filterMap forwardStep ++
           [.execution_complete cell
             { workerResultOf (effectiveCount ec reqCount + 1) outcome dur
                 with execution_time := dur2 }])) ++
        [.execution_complete cell
          { workerResultOf (effectiveCount ec reqCount + 1) outcome dur with
              execution_time := dur2 }]) =
      (CEvent.execution_start cell (prev + 1) ::
        (CEvent.execution_start cell (prev + 1) ::
          ((WEvent.execution_start cell (effectiveCount ec reqCount + 1) ::
            (workerMidEvents cell (effectiveCount ec reqCount + 1) code
              streams outcome evalRes figs).map
              MidEvt.toWEvent).filterMap forwardStep ++
           [.execution_complete cell
             { workerResultOf (effectiveCount ec reqCount + 1) outcome dur
                 with execution_time := dur2 }]))) ++
        [.execution_complete cell
          { workerResultOf (effectiveCount ec reqCount + 1) outcome dur with
              execution_time := dur2 }] from by simp]
    rw [List.getLast?_concat]
    rfl
  · simp [List.countP_cons, List.countP_append, WEvent.isStart,
      countP_map_toWEvent_zero _ _
        (fun m _ => (midEvt_not_boundary m).1)]
  · simp [List.countP_cons, List.countP_append, WEvent.isComplete,
      countP_map_toWEvent_zero _ _
        (fun m _ => (midEvt_not_boundary m).2)]

example : workerIsStatement "x = 1" = true := by decide
example : workerIsStatement "a == b" = false := by decide
example : workerIsStatement "f(x)" = true := by decide
example : workerIsStatement "assert(x)" = true := by decide
example : executorIsStatement "f(x)" = false := by decide
example : executorIsStatement "assert(x)" = false := by decide
example : specIsStatement "f(x)" = true := by decide
example : lastLineCandidate "x = 41\nx + 1" = some "x + 1" := by decide
example : lastLineCandidate "" = none := by decide
example : lastLineCandidate "x\n# c" = none := by decide

end MoreCompute
